import Mathlib

/-!
Formal model of the trading-strategy backtester in `src/backtester.py`.

The Python code is a single class `Backtester` with one simulation method
`run_backtest` (a stateful per-bar loop, lines 58-171) followed by a pure
statistics pass `_calculate_statistics` (lines 186-321).  We embed it
shallowly:

* machine floats become exact rationals `ℚ` (the claims under study are
  algebraic identities of the accounting, stated in exact arithmetic);
* the pandas DataFrame input becomes a `List Bar`, where `Bar.time = none`
  models a `NaT` produced by `pd.to_datetime(..., errors := coerce)`;
* the two places where the Python code raises an uncaught exception inside
  `_calculate_statistics` (the `.dt` accessor applied to an integer column
  when no datetime column was supplied, line 212, and the missing `equity`
  column of an empty DataFrame, line 268) are modelled by `run_backtest`
  returning `none`;
* the three real-valued metrics whose formulas involve `sqrt`/`pow`
  (`sharpe_ratio`, `cagr`, `calmar_ratio`, lines 253-285) are modelled by
  separate real-valued functions `sharpe_of`, `cagr_of`, `calmar_of` of the
  computable ingredients stored in `Results`, so that the rest of the
  development stays executable; `sharpe_of` returns `Option ℝ`, with `none`
  modelling the float `NaN` that pandas `std()` yields on fewer than two
  samples.

Corners deliberately outside the model (none of the claims depends on
them): float rounding, the `avg_hold_seconds`/`avg_hold_minutes` averages
(only their crash condition is modelled), a datetime column whose values
are all `NaT`, and division by a zero equity or price value (where pandas
floats give `inf`/`NaN`; `ℚ` division by zero gives the junk value `0` -
every theorem below that touches such a division carries a positivity
hypothesis that rules the corner out).
-/

/-- Direction tag of a completed trade: `LONG` when the closed position was
positive, `SHORT` otherwise (line 112 of the source). -/
inductive PositionType where
  | LONG
  | SHORT
  deriving DecidableEq, Repr

/-- One input row after timestamp parsing: `time = none` models `NaT`,
`price` is the `close` column, `signal` the `signal` column. -/
structure Bar where
  time : Option Int
  price : ℚ
  signal : ℚ
  deriving DecidableEq, Repr

/-- The per-row values the simulation loop actually reads (lines 59-62):
`current_time`, `current_date`, `current_price`, `current_signal`.  In
datetime mode `date` is the calendar date of `time`; in index mode `time`
is the row index and `date` is `none`. -/
structure Row where
  time : Option Int
  date : Option Int
  price : ℚ
  signal : ℚ
  deriving DecidableEq, Repr

/-- Immutable record of a completed round trip (lines 107-117). Its
`transaction_cost` field records only the exit cost; the entry cost was
charged to capital directly when the position was opened. -/
structure Trade where
  entry_time : Option Int
  exit_time : Option Int
  entry_price : ℚ
  exit_price : ℚ
  position_type : PositionType
  position_size : ℚ
  pnl : ℚ
  transaction_cost : ℚ
  net_pnl : ℚ
  deriving DecidableEq, Repr

/-- One equity-curve snapshot, appended unconditionally every bar
(lines 75-81). -/
structure EquityPoint where
  time : Option Int
  equity : ℚ
  price : ℚ
  signal : ℚ
  position : ℚ
  deriving DecidableEq, Repr

/-- Mutable loop state of `run_backtest` (lines 46-56): the tracking
variables plus the accumulating output lists.  `entry_time = none`
initially models the Python variable being unset before the first open. -/
structure SimState where
  capital : ℚ
  position : ℚ
  entry_price : ℚ
  position_value : ℚ
  entry_time : Option Int
  trades : List Trade
  daily_pnl : List (Int × ℚ)
  equity_curve : List EquityPoint
  transaction_costs : List ℚ
  deriving DecidableEq, Repr

/-- Accumulate a net P&L value into the daily P&L mapping
(lines 120-123 and 168-171): insert the key with 0 if absent, then add. -/
def addDaily (d : List (Int × ℚ)) (k : Int) (v : ℚ) : List (Int × ℚ) :=
  match d with
  | [] => [(k, v)]
  | (k₀, v₀) :: rest =>
      if k₀ = k then (k₀, v₀ + v) :: rest else (k₀, v₀) :: addDaily rest k v

/-- P&L of an open position marked at `price` (lines 66-69 and 94-97):
long positions use `value * (price / entry - 1)`, short positions use
`value * (1 - price / entry)`. -/
def positionPnl (position position_value entry_price price : ℚ) : ℚ :=
  if position > 0 then position_value * (price / entry_price - 1)
  else position_value * (1 - price / entry_price)

/-- Mark-to-market equity at the current bar (lines 64-73). -/
def current_equity (s : SimState) (price : ℚ) : ℚ :=
  if s.position ≠ 0 then
    s.capital + positionPnl s.position s.position_value s.entry_price price
  else s.capital

/-- Append the unconditional equity snapshot for this bar (lines 75-81). -/
def appendEquity (s : SimState) (r : Row) : SimState :=
  { s with equity_curve := s.equity_curve ++
      [{ time := r.time, equity := current_equity s r.price, price := r.price,
         signal := r.signal, position := s.position }] }

/-- Close an open position at the current bar, if any (lines 93-127):
realize P&L, charge the exit cost, record the `Trade`, accumulate daily
P&L when a calendar date is available, and reset the position to flat. -/
def closePosition (cost_rate : ℚ) (s : SimState) (r : Row) : SimState :=
  if s.position ≠ 0 then
    let pnl := positionPnl s.position s.position_value s.entry_price r.price
    let exit_cost := |s.position_value| * cost_rate
    { s with
      capital := s.capital + (pnl - exit_cost)
      transaction_costs := s.transaction_costs ++ [exit_cost]
      trades := s.trades ++
        [{ entry_time := s.entry_time, exit_time := r.time,
           entry_price := s.entry_price, exit_price := r.price,
           position_type := if s.position > 0 then PositionType.LONG else PositionType.SHORT,
           position_size := |s.position|, pnl := pnl,
           transaction_cost := exit_cost, net_pnl := pnl - exit_cost }]
      daily_pnl :=
        match r.date with
        | some d => addDaily s.daily_pnl d (pnl - exit_cost)
        | none => s.daily_pnl
      position := 0
      position_value := 0 }
  else s

/-- Open a new position if the target signal is non-zero (lines 129-139).
Note the source computes `position_value` from capital BEFORE deducting
the entry cost (line 132 precedes line 139), and the entry cost
`position_value * cost_rate` is written without `abs` (line 137). -/
def openPosition (cost_rate : ℚ) (s : SimState) (r : Row) : SimState :=
  if r.signal ≠ 0 then
    let position_value := s.capital * |r.signal|
    let entry_cost := position_value * cost_rate
    { s with
      position := r.signal
      position_value := position_value
      entry_price := r.price
      entry_time := r.time
      transaction_costs := s.transaction_costs ++ [entry_cost]
      capital := s.capital - entry_cost }
  else s

/-- One iteration of the bar loop (lines 58-139): snapshot equity, then, if
the signal differs from the current position, close and possibly reopen. -/
def stepBar (cost_rate : ℚ) (s : SimState) (r : Row) : SimState :=
  let s := appendEquity s r
  if r.signal ≠ s.position then openPosition cost_rate (closePosition cost_rate s r) r
  else s

/-- Forced close of a still-open position against the final bar
(lines 141-171).  Identical to `closePosition` except that the source does
NOT reset `position`/`position_value` to zero here (there is no analogue of
lines 126-127 in the final-close block). -/
def closeFinalPos (cost_rate : ℚ) (s : SimState) (r : Row) : SimState :=
  if s.position ≠ 0 then
    let pnl := positionPnl s.position s.position_value s.entry_price r.price
    let exit_cost := |s.position_value| * cost_rate
    { s with
      capital := s.capital + (pnl - exit_cost)
      transaction_costs := s.transaction_costs ++ [exit_cost]
      trades := s.trades ++
        [{ entry_time := s.entry_time, exit_time := r.time,
           entry_price := s.entry_price, exit_price := r.price,
           position_type := if s.position > 0 then PositionType.LONG else PositionType.SHORT,
           position_size := |s.position|, pnl := pnl,
           transaction_cost := exit_cost, net_pnl := pnl - exit_cost }]
      daily_pnl :=
        match r.date with
        | some d => addDaily s.daily_pnl d (pnl - exit_cost)
        | none => s.daily_pnl }
  else s

/-- Initial loop state (lines 46-56). -/
def initState (initial_capital : ℚ) : SimState :=
  { capital := initial_capital, position := 0, entry_price := 0,
    position_value := 0, entry_time := none, trades := [], daily_pnl := [],
    equity_curve := [], transaction_costs := [] }

/-- State after the bar loop (lines 58-139) over the given rows. -/
def loopState (initial_capital cost_rate : ℚ) (rows : List Row) : SimState :=
  rows.foldl (stepBar cost_rate) (initState initial_capital)

/-- Full simulation phase: the bar loop followed by the forced close
against the last row (lines 58-171).  This is the `simulate` contract of
the specification, producing final capital, the trade ledger, the daily
P&L mapping, the equity curve and the transaction-cost list. -/
def simulate (initial_capital cost_rate : ℚ) (rows : List Row) : SimState :=
  let s := loopState initial_capital cost_rate rows
  match rows.getLast? with
  | some r => closeFinalPos cost_rate s r
  | none => s

/-- Calendar date of an epoch-seconds timestamp, modelling the `.date()`
bucketing at lines 62, 120-123 and 145. -/
def dateOf (t : Int) : Int := t.fdiv 86400

/-- Timestamp order used by `df.sort_values(datetime_col)` (line 44):
ascending on parsed values, with `NaT` (`none`) placed last. -/
def timeLe : Option Int → Option Int → Prop
  | some a, some b => a ≤ b
  | some _, none => True
  | none, some _ => False
  | none, none => True

instance : DecidableRel timeLe := fun a b =>
  match a, b with
  | some a, some b => (inferInstance : Decidable (a ≤ b))
  | some _, none => isTrue trivial
  | none, some _ => isFalse fun h => h
  | none, none => isTrue trivial

/-- Row order of the sort at line 44: by parsed timestamp. -/
def barLe (x y : Bar) : Prop := timeLe x.time y.time

instance : DecidableRel barLe := fun x y =>
  (inferInstance : Decidable (timeLe x.time y.time))

instance : IsTotal Bar barLe :=
  ⟨fun x y => by
    unfold barLe
    cases x.time <;> cases y.time <;> simp [timeLe, Int.le_total]⟩

set_option linter.unnecessarySeqFocus false in
instance : IsTrans Bar barLe :=
  ⟨fun x y z hxy hyz => by
    unfold barLe at *
    cases hx : x.time <;> cases hy : y.time <;> cases hz : z.time <;>
      rw [hx, hy] at hxy <;> rw [hy, hz] at hyz <;> simp_all [timeLe] <;> omega⟩

/-- The re-sort the source performs whenever a datetime column is present
(line 44).  Modelled with a stable insertion sort; the source uses the
pandas default quicksort, which agrees with it whenever the timestamps are
pairwise distinct (every concrete input used below is of that form). -/
def sortByTime (bars : List Bar) : List Bar := List.insertionSort barLe bars

/-- Rows seen by the loop in datetime mode: parsed time plus its calendar
date (lines 61-62 with `datetime_col` present). -/
def preparedBars (bars : List Bar) : List Row :=
  bars.map fun b => { time := b.time, date := b.time.map dateOf, price := b.price, signal := b.signal }

/-- Rows seen by the loop in index mode (`datetime_col` absent): the
`i`-th row gets `current_time = i` and no calendar date (lines 61-62). -/
def indexBarsAux (i : Nat) : List Bar → List Row
  | [] => []
  | b :: bs => { time := some (i : Int), date := none, price := b.price, signal := b.signal } :: indexBarsAux (i + 1) bs

/-- Rows of the whole input in index mode. -/
def indexBars (bars : List Bar) : List Row := indexBarsAux 0 bars

/-- Minimum of the parsed timestamp column, skipping `NaT`
(`df[datetime_col].min()`, line 180). -/
def minTime (bars : List Bar) : Option Int :=
  bars.foldl
    (fun acc b =>
      match acc, b.time with
      | none, t => t
      | some m, none => some m
      | some m, some t => some (min m t))
    none

/-- Maximum of the parsed timestamp column, skipping `NaT`
(`df[datetime_col].max()`, line 181). -/
def maxTime (bars : List Bar) : Option Int :=
  bars.foldl
    (fun acc b =>
      match acc, b.time with
      | none, t => t
      | some m, none => some m
      | some m, some t => some (max m t))
    none

/-- Simulation phase of `run_backtest` on a raw input: with a datetime
column the input is first sorted by parsed timestamp (line 44), without one
the rows are processed in the supplied order with index timestamps. -/
def simOf (initial_capital cost_rate : ℚ) (bars : List Bar) (hasDatetime : Bool) : SimState :=
  if hasDatetime then simulate initial_capital cost_rate (preparedBars (sortByTime bars))
  else simulate initial_capital cost_rate (indexBars bars)

/-- Arithmetic mean, as used by the pandas `.mean()` calls. -/
def mean (l : List ℚ) : ℚ := l.sum / (l.length : ℚ)

/-- Sample variance with one delta degree of freedom, the square of the
pandas `.std()` at line 271.  `none` models the `NaN` that pandas returns
on fewer than two samples. -/
def sampleVar (l : List ℚ) : Option ℚ :=
  if 2 ≤ l.length then
    some (((l.map fun x => (x - mean l) ^ 2).sum) / ((l.length : ℚ) - 1))
  else none

/-- Per-bar percentage changes of a series: `pct_change()` followed by
`dropna()` (lines 268-269).  A zero previous value is outside the model
(pandas floats would give `inf`; `ℚ` division yields the junk value 0). -/
def pct_change (l : List ℚ) : List ℚ :=
  (l.zip l.tail).map fun p => p.2 / p.1 - 1

/-- Running maxima continuing from `m` (tail of `cummax()`, line 277). -/
def cummaxAux (m : ℚ) : List ℚ → List ℚ
  | [] => []
  | x :: xs => max m x :: cummaxAux (max m x) xs

/-- Running maxima of a series (`cummax()`, line 277). -/
def cummax : List ℚ → List ℚ
  | [] => []
  | x :: xs => x :: cummaxAux x xs

/-- Percentage drawdown of each equity value from the running maximum
(line 278). -/
def drawdowns (l : List ℚ) : List ℚ :=
  (l.zip (cummax l)).map fun p => (p.1 - p.2) / p.2 * 100

/-- Maximum of a list of rationals, with the neutral value 0 on the empty
list (the source guards every `.max()` call by emptiness checks that make
the two conventions agree). -/
def maxD : List ℚ → ℚ
  | [] => 0
  | x :: xs => xs.foldl max x

/-- Minimum of a list of rationals, 0 on the empty list. -/
def minD : List ℚ → ℚ
  | [] => 0
  | x :: xs => xs.foldl min x

/-- Sum of the `net_pnl` fields of a trade ledger. -/
def netSum (ts : List Trade) : ℚ := (ts.map fun t => t.net_pnl).sum

/-- Sum of the recorded (exit-side) `transaction_cost` fields of a ledger. -/
def tcSum (ts : List Trade) : ℚ := (ts.map fun t => t.transaction_cost).sum

/-- Scalar results of `_calculate_statistics` (lines 288-319), restricted
to the computable fields.  The three metrics whose formulas leave `ℚ`
(`cagr`, `sharpe_ratio`, `calmar_ratio`) are the functions `cagr_of`,
`sharpe_of` and `calmar_of` below, applied to the ingredients stored here;
the two average-hold fields are omitted (of their computation only the
crash on an integer time column, line 212, is modelled). -/
structure Results where
  initial_capital : ℚ
  final_capital : ℚ
  total_pnl : ℚ
  total_transaction_cost : ℚ
  penalty_counts : Nat
  final_returns : ℚ
  annualized_returns : ℚ
  max_drawdown : ℚ
  n_days : Int
  winning_days : Nat
  losing_days : Nat
  best_day : Nat
  worst_day : Nat
  best_day_pnl : ℚ
  worst_day_pnl : ℚ
  total_trades : Nat
  winning_trades : Nat
  losing_trades : Nat
  win_rate : ℚ
  avg_winning_trade : ℚ
  avg_losing_trade : ℚ
  best_trade : ℚ
  worst_trade : ℚ
  trades : List Trade
  equity_curve : List EquityPoint
  deriving DecidableEq, Repr

/-- The statistics pass `_calculate_statistics` (lines 186-319).  Returns
`none` exactly where the Python code raises: when there is at least one
trade but the time columns hold plain integers (no datetime column was
supplied), the `.dt` accessor at line 212 raises `AttributeError`; and on
an empty equity curve the missing `equity` column raises `KeyError` at
line 268.  Neither failure is an intentional input check. -/
def calculate_statistics (initial_capital : ℚ) (hasDatetime : Bool)
    (final_capital : ℚ) (trades : List Trade) (daily_pnl : List (Int × ℚ))
    (equity_curve : List EquityPoint) (transaction_costs : List ℚ)
    (start_date end_date : Option Int) : Option Results :=
  if trades ≠ [] ∧ hasDatetime = false then none
  else if equity_curve = [] then none
  else
    let n_trades := trades.length
    let winners := trades.filter fun t => 0 < t.net_pnl
    let losers := trades.filter fun t => t.net_pnl < 0
    let daily_vals := daily_pnl.map fun p => p.2
    let n_calendar_days : Int :=
      match start_date, end_date with
      | some sd, some ed => (ed - sd).fdiv 86400 + 1
      | _, _ => (daily_vals.length : Int)
    let years : ℚ := (n_calendar_days : ℚ) / (1461 / 4)
    some
      { initial_capital := initial_capital
        final_capital := final_capital
        total_pnl := final_capital - initial_capital
        total_transaction_cost := transaction_costs.sum
        penalty_counts := 0
        final_returns := (final_capital - initial_capital) / initial_capital * 100
        annualized_returns :=
          if 0 < years then (final_capital / initial_capital - 1) / years * 100 else 0
        max_drawdown := minD (drawdowns (equity_curve.map fun e => e.equity))
        n_days := n_calendar_days
        winning_days := (daily_vals.filter fun v => 0 < v).length
        losing_days := (daily_vals.filter fun v => v < 0).length
        best_day := (daily_vals.filter fun v => 0 < v).length
        worst_day := (daily_vals.filter fun v => v < 0).length
        best_day_pnl := maxD daily_vals
        worst_day_pnl := minD daily_vals
        total_trades := n_trades
        winning_trades := winners.length
        losing_trades := losers.length
        win_rate := if 0 < n_trades then (winners.length : ℚ) / (n_trades : ℚ) * 100 else 0
        avg_winning_trade := if 0 < winners.length then mean (winners.map fun t => t.net_pnl) else 0
        avg_losing_trade := if 0 < losers.length then mean (losers.map fun t => t.net_pnl) else 0
        best_trade := maxD (trades.map fun t => t.net_pnl)
        worst_trade := minD (trades.map fun t => t.net_pnl)
        trades := trades
        equity_curve := equity_curve }

/-- The full `run_backtest` entry point (lines 20-184): optional sort,
simulation loop, forced final close, then statistics. -/
def run_backtest (initial_capital cost_rate : ℚ) (bars : List Bar)
    (hasDatetime : Bool) : Option Results :=
  let s := simOf initial_capital cost_rate bars hasDatetime
  let start_date := if hasDatetime then minTime (sortByTime bars) else none
  let end_date := if hasDatetime then maxTime (sortByTime bars) else none
  calculate_statistics initial_capital hasDatetime s.capital s.trades
    s.daily_pnl s.equity_curve s.transaction_costs start_date end_date

/-- The per-bar equity returns fed into the Sharpe computation
(lines 267-269) for a given simulation state. -/
def equityReturns (s : SimState) : List ℚ :=
  pct_change (s.equity_curve.map fun e => e.equity)

/-- The CAGR metric (lines 253-258): zero unless the calendar span is
positive, otherwise `(pow(final/initial, 1/years) - 1) * 100` with
`years = n_calendar_days / 365.25`. -/
noncomputable def cagr_of (initial_capital final_capital : ℚ) (n_calendar_days : Int) : ℝ :=
  let years : ℚ := (n_calendar_days : ℚ) / (1461 / 4)
  if 0 < years then
    (((final_capital / initial_capital : ℚ) : ℝ) ^ ((1 : ℝ) / (years : ℝ)) - 1) * 100
  else 0

/-- The Sharpe ratio (lines 271-274).  The guard mirrors the source: the
branch is taken when at least one return exists and the standard deviation
is not zero; because the float `NaN` std of a singleton sample compares
unequal to 0, that case takes the branch and propagates `NaN`, modelled
here by `none`. -/
noncomputable def sharpe_of (returns : List ℚ) : Option ℝ :=
  if 0 < returns.length ∧ sampleVar returns ≠ some 0 then
    (sampleVar returns).map fun v =>
      ((mean returns : ℚ) : ℝ) / Real.sqrt ((v : ℚ) : ℝ) * Real.sqrt 252
  else some 0

/-- The Calmar ratio (lines 281-285): `|cagr / max_drawdown|` when the
maximum drawdown is negative, otherwise 0. -/
noncomputable def calmar_of (cagr : ℝ) (max_drawdown : ℚ) : ℝ :=
  if max_drawdown < 0 then |cagr / (max_drawdown : ℝ)| else 0

/-! ### Structural lemmas about the simulation loop -/

theorem closePosition_equity (cost_rate : ℚ) (s : SimState) (r : Row) :
    (closePosition cost_rate s r).equity_curve = s.equity_curve := by
  unfold closePosition
  split_ifs <;> rfl

theorem openPosition_equity (cost_rate : ℚ) (s : SimState) (r : Row) :
    (openPosition cost_rate s r).equity_curve = s.equity_curve := by
  unfold openPosition
  split_ifs <;> rfl

theorem closeFinalPos_equity (cost_rate : ℚ) (s : SimState) (r : Row) :
    (closeFinalPos cost_rate s r).equity_curve = s.equity_curve := by
  unfold closeFinalPos
  split_ifs <;> rfl

/-- Every loop iteration appends exactly the unconditional equity snapshot
of lines 75-81 and nothing else to the equity curve. -/
theorem stepBar_equity (cost_rate : ℚ) (s : SimState) (r : Row) :
    (stepBar cost_rate s r).equity_curve = s.equity_curve ++
      [{ time := r.time, equity := current_equity s r.price, price := r.price,
         signal := r.signal, position := s.position }] := by
  simp only [stepBar]
  split_ifs with h
  · rw [openPosition_equity, closePosition_equity]
    rfl
  · rfl

/-- A bar whose signal equals the current position only appends an equity
snapshot: the transition test at line 91 fails, so no trade logic runs. -/
theorem stepBar_frame (cost_rate : ℚ) (s : SimState) (r : Row)
    (h : r.signal = s.position) :
    stepBar cost_rate s r = appendEquity s r := by
  simp only [stepBar]
  rw [if_neg]
  simp [appendEquity, h]

/-- Folding the loop over bars whose signals all equal the current
position leaves every state component unchanged except the equity curve,
which accumulates one mark-to-market snapshot per bar. -/
theorem foldl_const_signal (cost_rate : ℚ) (rows : List Row) (s : SimState)
    (h : ∀ r ∈ rows, r.signal = s.position) :
    rows.foldl (stepBar cost_rate) s =
      { s with equity_curve := s.equity_curve ++
          rows.map fun r =>
            { time := r.time, equity := current_equity s r.price, price := r.price,
              signal := r.signal, position := s.position } } := by
  induction rows generalizing s with
  | nil => simp
  | cons r rs ih =>
      have hr : r.signal = s.position := h r (List.mem_cons_self r rs)
      rw [List.foldl_cons, stepBar_frame cost_rate s r hr]
      rw [ih (appendEquity s r) (fun x hx => h x (List.mem_cons_of_mem r hx))]
      simp [appendEquity, current_equity]

/-- Accounting potential of a loop state: capital minus the booked net
P&L plus the part of the transaction-cost ledger that no `Trade` record
carries (exactly the accumulated entry costs).  Every loop operation
conserves it, which is the precise form of the ledger/capital identity. -/
def Phi (s : SimState) : ℚ :=
  s.capital - netSum s.trades + (s.transaction_costs.sum - tcSum s.trades)

theorem closePosition_Phi (cost_rate : ℚ) (s : SimState) (r : Row) :
    Phi (closePosition cost_rate s r) = Phi s := by
  unfold closePosition
  split_ifs <;> first
    | rfl
    | (simp [Phi, netSum, tcSum]; try ring)

theorem openPosition_Phi (cost_rate : ℚ) (s : SimState) (r : Row) :
    Phi (openPosition cost_rate s r) = Phi s := by
  unfold openPosition
  split_ifs <;> first
    | rfl
    | (simp [Phi, netSum, tcSum]; try ring)

theorem closeFinalPos_Phi (cost_rate : ℚ) (s : SimState) (r : Row) :
    Phi (closeFinalPos cost_rate s r) = Phi s := by
  unfold closeFinalPos
  split_ifs <;> first
    | rfl
    | (simp [Phi, netSum, tcSum]; try ring)

theorem appendEquity_Phi (s : SimState) (r : Row) :
    Phi (appendEquity s r) = Phi s := rfl

theorem stepBar_Phi (cost_rate : ℚ) (s : SimState) (r : Row) :
    Phi (stepBar cost_rate s r) = Phi s := by
  simp only [stepBar]
  split_ifs with h
  · rw [openPosition_Phi, closePosition_Phi, appendEquity_Phi]
  · rw [appendEquity_Phi]

theorem foldl_Phi (cost_rate : ℚ) (rows : List Row) (s : SimState) :
    Phi (rows.foldl (stepBar cost_rate) s) = Phi s := by
  induction rows generalizing s with
  | nil => rfl
  | cons r rs ih => rw [List.foldl_cons, ih, stepBar_Phi]

/-- The simulation conserves the accounting potential. -/
theorem simulate_Phi (initial_capital cost_rate : ℚ) (rows : List Row) :
    Phi (simulate initial_capital cost_rate rows) = initial_capital := by
  unfold simulate loopState
  cases h : rows.getLast? with
  | none => rw [foldl_Phi]; simp [Phi, initState, netSum, tcSum]
  | some r => rw [closeFinalPos_Phi, foldl_Phi]; simp [Phi, initState, netSum, tcSum]

/-! ### Position-tracking lemmas -/

theorem closePosition_position_cases (cost_rate : ℚ) (s : SimState) (r : Row) :
    (closePosition cost_rate s r).position = 0 ∨
      (closePosition cost_rate s r).position = s.position := by
  unfold closePosition
  split_ifs <;> simp

theorem openPosition_position_cases (cost_rate : ℚ) (s : SimState) (r : Row) :
    (openPosition cost_rate s r).position = r.signal ∨
      (openPosition cost_rate s r).position = s.position := by
  unfold openPosition
  split_ifs <;> simp

theorem stepBar_position_cases (cost_rate : ℚ) (s : SimState) (r : Row) :
    (stepBar cost_rate s r).position = 0 ∨ (stepBar cost_rate s r).position = s.position ∨
      (stepBar cost_rate s r).position = r.signal := by
  simp only [stepBar]
  split_ifs with h
  · rcases openPosition_position_cases cost_rate (closePosition cost_rate (appendEquity s r) r) r with h1 | h1
    · exact Or.inr (Or.inr h1)
    · rw [h1]
      rcases closePosition_position_cases cost_rate (appendEquity s r) r with h2 | h2
      · exact Or.inl h2
      · exact Or.inr (Or.inl h2)
  · exact Or.inr (Or.inl rfl)

/-- Reachability form of the position invariant: after any prefix of the
loop, the held position is zero, the starting position, or one of the
signal values seen so far. -/
theorem foldl_position_mem (cost_rate : ℚ) (rows : List Row) (s : SimState) :
    (rows.foldl (stepBar cost_rate) s).position = 0 ∨
      (rows.foldl (stepBar cost_rate) s).position = s.position ∨
      (rows.foldl (stepBar cost_rate) s).position ∈ rows.map (fun r => r.signal) := by
  induction rows generalizing s with
  | nil => simp
  | cons r rs ih =>
      rw [List.foldl_cons]
      rcases ih (stepBar cost_rate s r) with h | h | h
      · exact Or.inl h
      · rcases stepBar_position_cases cost_rate s r with h2 | h2 | h2
        · exact Or.inl (h.trans h2)
        · exact Or.inr (Or.inl (h.trans h2))
        · exact Or.inr (Or.inr (by rw [List.map_cons]; exact List.mem_cons.mpr (Or.inl (h.trans h2))))
      · exact Or.inr (Or.inr (by rw [List.map_cons]; exact List.mem_cons.mpr (Or.inr h)))

/-- Notional-value invariant: while a position is open, its notional
equals the capital held at entry time multiplied by the absolute position
size.  Because capital is frozen mid-trade, the capital at entry time is
recoverable from the current state as `capital + position_value * cost_rate`
(the entry cost is the only deduction made after the notional was fixed). -/
def NotionalInv (cost_rate : ℚ) (s : SimState) : Prop :=
  s.position ≠ 0 →
    s.position_value = (s.capital + s.position_value * cost_rate) * |s.position|

theorem closePosition_notional (cost_rate : ℚ) (s : SimState) (r : Row)
    (h : NotionalInv cost_rate s) : NotionalInv cost_rate (closePosition cost_rate s r) := by
  unfold closePosition
  split_ifs <;> first
    | exact h
    | (intro hp; exact absurd rfl hp)

theorem openPosition_notional (cost_rate : ℚ) (s : SimState) (r : Row)
    (h : NotionalInv cost_rate s) : NotionalInv cost_rate (openPosition cost_rate s r) := by
  unfold openPosition
  split_ifs with h1
  · intro _
    show s.capital * |r.signal| =
      (s.capital - s.capital * |r.signal| * cost_rate + s.capital * |r.signal| * cost_rate) * |r.signal|
    ring
  · exact h

theorem stepBar_notional (cost_rate : ℚ) (s : SimState) (r : Row)
    (h : NotionalInv cost_rate s) : NotionalInv cost_rate (stepBar cost_rate s r) := by
  simp only [stepBar]
  split_ifs with h1
  · exact openPosition_notional _ _ _ (closePosition_notional _ _ _ h)
  · exact h

theorem foldl_notional (cost_rate : ℚ) (rows : List Row) (s : SimState)
    (h : NotionalInv cost_rate s) :
    NotionalInv cost_rate (rows.foldl (stepBar cost_rate) s) := by
  induction rows generalizing s with
  | nil => exact h
  | cons r rs ih => exact ih _ (stepBar_notional cost_rate s r h)

/-! ### Equity-curve shape lemmas -/

/-- Projection of the equity curve onto (price, signal): the loop emits
exactly one snapshot per processed row, in processing order. -/
theorem foldl_equity_proj (cost_rate : ℚ) (rows : List Row) (s : SimState) :
    ((rows.foldl (stepBar cost_rate) s).equity_curve.map fun e => (e.price, e.signal)) =
      (s.equity_curve.map fun e => (e.price, e.signal)) ++
        rows.map fun r => (r.price, r.signal) := by
  induction rows generalizing s with
  | nil => simp
  | cons r rs ih =>
      rw [List.foldl_cons, ih, stepBar_equity]
      simp

theorem foldl_equity_length (cost_rate : ℚ) (rows : List Row) (s : SimState) :
    (rows.foldl (stepBar cost_rate) s).equity_curve.length =
      s.equity_curve.length + rows.length := by
  have h := congrArg List.length (foldl_equity_proj cost_rate rows s)
  simpa using h

theorem simulate_equity_length (initial_capital cost_rate : ℚ) (rows : List Row) :
    (simulate initial_capital cost_rate rows).equity_curve.length = rows.length := by
  unfold simulate loopState
  cases h : rows.getLast? with
  | none => simpa [initState] using foldl_equity_length cost_rate rows (initState initial_capital)
  | some r =>
      rw [closeFinalPos_equity]
      simpa [initState] using foldl_equity_length cost_rate rows (initState initial_capital)

theorem simulate_equity_proj (initial_capital cost_rate : ℚ) (rows : List Row) :
    ((simulate initial_capital cost_rate rows).equity_curve.map fun e => (e.price, e.signal)) =
      rows.map fun r => (r.price, r.signal) := by
  unfold simulate loopState
  cases h : rows.getLast? with
  | none => simpa [initState] using foldl_equity_proj cost_rate rows (initState initial_capital)
  | some r =>
      rw [closeFinalPos_equity]
      simpa [initState] using foldl_equity_proj cost_rate rows (initState initial_capital)

theorem getLast?_cons_getLastD (b : Row) (bs : List Row) :
    (b :: bs).getLast? = some (bs.getLastD b) := by
  induction bs generalizing b with
  | nil => rfl
  | cons x xs ih => rw [List.getLastD_cons]; exact ih x

/-! ### Claim C1 -/

/-- C1 counterexample: on the valid two-bar input (positive prices,
`cost_rate = 1/10` in `[0,1)`, initial capital 100) the ledger's net P&L
sums to -10, while `final_capital - initial_capital = -20`: the claimed
identity fails because each trade's `net_pnl` excludes the entry cost
charged at open (line 139 deducts it from capital only; line 116 books
`pnl - exit_cost`). -/
theorem C1_counterexample :
    netSum (simulate 100 (1/10)
        [⟨some 0, none, 100, 1⟩, ⟨some 60, none, 100, 0⟩]).trades = -10
    ∧ (simulate 100 (1/10)
        [⟨some 0, none, 100, 1⟩, ⟨some 60, none, 100, 0⟩]).capital - 100 = -20
    ∧ ((-10 : ℚ) ≠ -20) := by
  refine ⟨?_, ?_, by norm_num⟩ <;>
    norm_num [simulate, loopState, stepBar, appendEquity, closePosition, openPosition,
      closeFinalPos, initState, current_equity, positionPnl, addDaily, netSum]

/-- C1 (amended): for every bar sequence and parameters, after `simulate`
completes (forced close included) the sum of the trades' `net_pnl` equals
`final_capital - initial_capital` PLUS the total entry costs, where the
entry costs are the transaction-cost ledger total minus the per-trade
(exit-side) `transaction_cost` fields.  Equivalently,
`final_capital - initial_capital = netSum trades - entry costs`. -/
theorem C1_ledger_capital_identity (initial_capital cost_rate : ℚ) (rows : List Row) :
    (simulate initial_capital cost_rate rows).capital - initial_capital =
      netSum (simulate initial_capital cost_rate rows).trades -
        ((simulate initial_capital cost_rate rows).transaction_costs.sum -
          tcSum (simulate initial_capital cost_rate rows).trades) := by
  have h := simulate_Phi initial_capital cost_rate rows
  unfold Phi at h
  linarith

/-! ### Claim C2 -/

/-- C2 counterexample: on the claimed concrete scenario the single trade's
gross P&L is 1000, not `9997 * (110/100 - 1) = 999.7`, and the final
capital is exactly 10994, not approximately 10993.70 (the deviation is
0.30, far beyond two-decimal rounding): the source fixes the notional from
capital before the entry cost is deducted (line 132 precedes line 139). -/
theorem C2_counterexample :
    ((simulate 10000 (3/10000)
        [⟨some 0, some 0, 100, 1⟩, ⟨some 60, some 0, 110, 0⟩]).trades.map
      fun t => t.pnl) = [1000]
    ∧ ¬((1000 : ℚ) = 9997 * (110 / 100 - 1))
    ∧ (simulate 10000 (3/10000)
        [⟨some 0, some 0, 100, 1⟩, ⟨some 60, some 0, 110, 0⟩]).capital = 10994
    ∧ ¬(|(10994 : ℚ) - 109937 / 10| < 1 / 4) := by
  refine ⟨?_, by norm_num, ?_, by rw [abs_of_nonneg (by norm_num)]; norm_num⟩ <;>
    norm_num [simulate, loopState, stepBar, appendEquity, closePosition, openPosition,
      closeFinalPos, initState, current_equity, positionPnl, addDaily]

/-- C2 (amended): on the input `initial_capital = 10000`,
`cost_rate = 0.0003`, bars `[(t1, 100, 1), (t2, 110, 0)]`, `simulate`
opens at 100 with notional 10000 (capital before the entry cost), entry
cost 3, leaving capital 9997; it closes at 110 with gross P&L
`10000 * (110/100 - 1) = 1000`, exit cost `|10000| * 0.0003 = 3`, and books
exactly one LONG trade with `net_pnl = 997`; final capital is exactly
10994 and the cost ledger is `[3, 3]`. -/
theorem C2_concrete_scenario :
    (simulate 10000 (3/10000)
        [⟨some 0, some 0, 100, 1⟩, ⟨some 60, some 0, 110, 0⟩]).trades =
      [{ entry_time := some 0, exit_time := some 60, entry_price := 100,
         exit_price := 110, position_type := PositionType.LONG, position_size := 1,
         pnl := 1000, transaction_cost := 3, net_pnl := 997 }]
    ∧ (simulate 10000 (3/10000)
        [⟨some 0, some 0, 100, 1⟩, ⟨some 60, some 0, 110, 0⟩]).capital = 10994
    ∧ (simulate 10000 (3/10000)
        [⟨some 0, some 0, 100, 1⟩, ⟨some 60, some 0, 110, 0⟩]).transaction_costs = [3, 3]
    ∧ ((simulate 10000 (3/10000)
        [⟨some 0, some 0, 100, 1⟩, ⟨some 60, some 0, 110, 0⟩]).equity_curve.map
      fun e => e.equity) = [10000, 10997] := by
  refine ⟨?_, ?_, ?_, ?_⟩ <;>
    norm_num [simulate, loopState, stepBar, appendEquity, closePosition, openPosition,
      closeFinalPos, initState, current_equity, positionPnl, addDaily]

/-! ### Claim C3 -/

/-- C3 counterexample: a single bar with non-zero signal is opened and
force-closed on the same bar; with capital 10000, `cost_rate = 1/10`,
price 100, signal 1, the entry and exit costs are 1000 each, but the
recorded trade's `net_pnl` is -1000, not `-(1000 + 1000)`: the entry cost
never enters `net_pnl` (line 116 books `pnl - exit_cost` only). -/
theorem C3_counterexample :
    ((simulate 10000 (1/10) [⟨none, none, 100, 1⟩]).trades.map
      fun t => t.net_pnl) = [-1000]
    ∧ (simulate 10000 (1/10) [⟨none, none, 100, 1⟩]).capital - 10000 = -2000
    ∧ ((-1000 : ℚ) ≠ -(1000 + 1000)) := by
  refine ⟨?_, ?_, by norm_num⟩ <;>
    norm_num [simulate, loopState, stepBar, appendEquity, closePosition, openPosition,
      closeFinalPos, initState, current_equity, positionPnl, addDaily]

set_option linter.unnecessarySeqFocus false in
/-- C3 (amended): every single-bar input with positive price and non-zero
signal produces exactly one trade, opened and force-closed at that bar,
with equal entry and exit prices, zero gross P&L, and `net_pnl` equal to
the NEGATED EXIT COST ALONE, `-(|capital * |signal|| * cost_rate)`; the
entry cost is charged to capital only, so the total capital change is
`-(entry cost + exit cost)` while the trade's `net_pnl` is just
`-(exit cost)`. -/
theorem C3_single_bar (initial_capital cost_rate : ℚ) (t d : Option Int) (p sg : ℚ)
    (hp : 0 < p) (hsg : sg ≠ 0) :
    (simulate initial_capital cost_rate [⟨t, d, p, sg⟩]).trades =
      [{ entry_time := t, exit_time := t, entry_price := p, exit_price := p,
         position_type := if 0 < sg then PositionType.LONG else PositionType.SHORT,
         position_size := |sg|, pnl := 0,
         transaction_cost := abs (initial_capital * |sg|) * cost_rate,
         net_pnl := -(abs (initial_capital * |sg|) * cost_rate) }]
    ∧ (simulate initial_capital cost_rate [⟨t, d, p, sg⟩]).capital =
        initial_capital - initial_capital * |sg| * cost_rate -
          abs (initial_capital * |sg|) * cost_rate := by
  have hpp : p / p = 1 := div_self (ne_of_gt hp)
  rcases lt_or_gt_of_ne hsg with hneg | hpos
  · constructor <;>
      simp [simulate, loopState, stepBar, appendEquity, closePosition, openPosition,
        closeFinalPos, initState, current_equity, positionPnl, hsg, hneg.not_lt, hpp,
        gt_iff_lt] <;> ring
  · constructor <;>
      simp [simulate, loopState, stepBar, appendEquity, closePosition, openPosition,
        closeFinalPos, initState, current_equity, positionPnl, hsg, hpos, hpos.ne',
        hpp, gt_iff_lt] <;> ring

/-- C3 witness: the amended single-bar theorem evaluated at capital 10000,
cost rate 1/100, price 100, signal 1. -/
theorem C3_single_bar_witness :
    (simulate 10000 (1/100) [⟨some 5, none, 100, 1⟩]).trades =
      [{ entry_time := some 5, exit_time := some 5, entry_price := 100, exit_price := 100,
         position_type := PositionType.LONG, position_size := 1, pnl := 0,
         transaction_cost := 100, net_pnl := -100 }]
    ∧ (simulate 10000 (1/100) [⟨some 5, none, 100, 1⟩]).capital = 9800 := by
  have h := C3_single_bar 10000 (1/100) (some 5) none 100 1 (by norm_num) (by norm_num)
  constructor
  · rw [h.1]
    norm_num
  · rw [h.2]
    norm_num

/-! ### Claim C4 -/

/-- C4 counterexample: an input containing only non-positive prices, and an
input whose timestamps are non-monotonic, are both accepted: `run_backtest`
returns a `Results` value for each instead of rejecting them with an
explicit invalid-input error (the source has no validation anywhere;
non-monotonic timestamps are silently re-sorted by line 44). -/
theorem C4_counterexample :
    (run_backtest 10000 (3/10000) [⟨some 0, -5, 1⟩, ⟨some 60, -10, 0⟩] true).isSome = true
    ∧ (run_backtest 10000 (3/10000) [⟨some 60, 100, 1⟩, ⟨some 0, 50, 0⟩] true).isSome = true := by
  constructor <;>
    · norm_num [run_backtest, simOf, preparedBars, sortByTime, List.insertionSort,
        List.orderedInsert, barLe, timeLe, dateOf, minTime, maxTime, calculate_statistics,
        simulate, loopState, stepBar, appendEquity, closePosition, openPosition,
        closeFinalPos, initState, current_equity, positionPnl, addDaily, Int.fdiv,
        mean, maxD, minD, drawdowns, cummax, cummaxAux, pct_change]
      simp

/-- C4 (amended): the code performs no input validation at all.  Any
non-empty input processed with a datetime column produces a `Results`
value, whatever its prices or timestamp order (non-positive prices flow
into the P&L division, non-monotonic timestamps are silently sorted).
Only the empty input fails to produce `Results`, and that failure is an
accidental missing-column error inside the statistics pass (line 268), not
an explicit invalid-input rejection. -/
theorem C4_no_validation :
    (∀ (initial_capital cost_rate : ℚ) (hasDatetime : Bool),
      run_backtest initial_capital cost_rate [] hasDatetime = none)
    ∧ ∀ (initial_capital cost_rate : ℚ) (bars : List Bar), bars ≠ [] →
      (run_backtest initial_capital cost_rate bars true).isSome = true := by
  constructor
  · intro initial_capital cost_rate hasDatetime
    cases hasDatetime <;> rfl
  · intro initial_capital cost_rate bars hb
    have hlen : (simOf initial_capital cost_rate bars true).equity_curve.length = bars.length := by
      simp only [simOf, if_true]
      rw [simulate_equity_length]
      simp [preparedBars, sortByTime, List.length_insertionSort]
    have hne : (simOf initial_capital cost_rate bars true).equity_curve ≠ [] := by
      intro h0
      rw [h0] at hlen
      exact hb (List.length_eq_zero.mp hlen.symm)
    simp only [run_backtest, calculate_statistics]
    rw [if_neg (by simp), if_neg hne]
    rfl

/-- C4 witness: the amended theorem evaluated at the empty input and at a
concrete one-bar input. -/
theorem C4_no_validation_witness :
    run_backtest 10000 (3/10000) [] true = none
    ∧ (run_backtest 10000 (3/10000) [⟨some 0, 100, 1⟩] true).isSome = true :=
  ⟨C4_no_validation.1 10000 (3/10000) true,
   C4_no_validation.2 10000 (3/10000) [⟨some 0, 100, 1⟩] (by simp)⟩

/-! ### Claim C5 -/

/-- C5: the loop invariants of the position state.  After any prefix of
the loop (i) a non-zero held position is one of the signal values seen so
far (the signal stream directly dictates position size, line 88); (ii) an
open position's notional equals the capital held at entry time - which,
capital being frozen mid-trade, is the current capital plus the entry cost
`position_value * cost_rate` deducted at open - times the absolute
position size (lines 132, 137-139); and (iii) a bar whose signal equals
the current position mutates nothing but the equity curve: capital is
touched only by position-close and position-open events. -/
theorem C5_invariants (initial_capital cost_rate : ℚ) (rows : List Row) :
    ((loopState initial_capital cost_rate rows).position ≠ 0 →
        (loopState initial_capital cost_rate rows).position ∈
          rows.map fun r => r.signal)
    ∧ ((loopState initial_capital cost_rate rows).position ≠ 0 →
        (loopState initial_capital cost_rate rows).position_value =
          ((loopState initial_capital cost_rate rows).capital +
            (loopState initial_capital cost_rate rows).position_value * cost_rate) *
            |(loopState initial_capital cost_rate rows).position|)
    ∧ ∀ (s : SimState) (r : Row), r.signal = s.position →
        stepBar cost_rate s r = appendEquity s r := by
  refine ⟨?_, ?_, ?_⟩
  · intro hp
    rcases foldl_position_mem cost_rate rows (initState initial_capital) with h | h | h
    · exact absurd h hp
    · exact absurd h hp
    · exact h
  · intro hp
    exact foldl_notional cost_rate rows (initState initial_capital)
      (fun h0 => absurd rfl h0) hp
  · intro s r h
    exact stepBar_frame cost_rate s r h

/-- C5 witness: the invariants evaluated on a concrete one-bar run that
holds an open position, plus a concrete no-transition step. -/
theorem C5_invariants_witness :
    (loopState 10000 (3/10000) [⟨none, none, 100, 1⟩]).position ∈
      ([⟨none, none, 100, 1⟩] : List Row).map (fun r => r.signal)
    ∧ (loopState 10000 (3/10000) [⟨none, none, 100, 1⟩]).position_value =
        ((loopState 10000 (3/10000) [⟨none, none, 100, 1⟩]).capital +
          (loopState 10000 (3/10000) [⟨none, none, 100, 1⟩]).position_value * (3/10000)) *
          |(loopState 10000 (3/10000) [⟨none, none, 100, 1⟩]).position|
    ∧ stepBar (3/10000) (initState 5) ⟨none, none, 7, 0⟩ =
        appendEquity (initState 5) ⟨none, none, 7, 0⟩ := by
  have h := C5_invariants 10000 (3/10000) [⟨none, none, 100, 1⟩]
  refine ⟨h.1 ?_, h.2.1 ?_, h.2.2 (initState 5) ⟨none, none, 7, 0⟩ rfl⟩ <;>
    norm_num [loopState, stepBar, appendEquity, closePosition, openPosition,
      initState, current_equity, positionPnl]

/-! ### Claim C6 -/

/-- C6: a non-zero signal value held unchanged over all N bars of a run
produces exactly one open/close pair spanning the whole run - a single
trade whose entry time is the first bar's and whose exit time is the last
bar's - and exactly two transaction-cost charges (one entry, one exit):
the transition test at line 91 compares values, so the repeated bars add
no trades and no costs. -/
theorem C6_hold_no_churn (initial_capital cost_rate v : ℚ) (b : Row) (bs : List Row)
    (hv : v ≠ 0) (hb : b.signal = v) (hbs : ∀ x ∈ bs, x.signal = v) :
    ((simulate initial_capital cost_rate (b :: bs)).trades.map
        fun tr => (tr.entry_time, tr.exit_time)) = [(b.time, (bs.getLastD b).time)]
    ∧ (simulate initial_capital cost_rate (b :: bs)).transaction_costs.length = 2 := by
  have hstep : stepBar cost_rate (initState initial_capital) b =
      { capital := initial_capital - initial_capital * |v| * cost_rate,
        position := v, entry_price := b.price,
        position_value := initial_capital * |v|, entry_time := b.time,
        trades := [], daily_pnl := [],
        equity_curve := [⟨b.time, initial_capital, b.price, b.signal, 0⟩],
        transaction_costs := [initial_capital * |v| * cost_rate] } := by
    simp [stepBar, appendEquity, closePosition, openPosition, initState,
      current_equity, hb, hv]
  have hfold := foldl_const_signal cost_rate bs
      (stepBar cost_rate (initState initial_capital) b)
      (by rw [hstep]; intro x hx; exact hbs x hx)
  unfold simulate loopState
  rw [getLast?_cons_getLastD, List.foldl_cons, hfold, hstep]
  simp [closeFinalPos, hv]

/-- C6 witness: holding a half-long signal over three consecutive bars
yields one trade spanning bars one to three and exactly two cost charges. -/
theorem C6_hold_no_churn_witness :
    ((simulate 10000 (3/10000)
        [⟨some 0, some 0, 50, 1/2⟩, ⟨some 60, some 0, 50, 1/2⟩,
         ⟨some 120, some 0, 50, 1/2⟩]).trades.map
      fun tr => (tr.entry_time, tr.exit_time)) = [(some 0, some 120)]
    ∧ (simulate 10000 (3/10000)
        [⟨some 0, some 0, 50, 1/2⟩, ⟨some 60, some 0, 50, 1/2⟩,
         ⟨some 120, some 0, 50, 1/2⟩]).transaction_costs.length = 2 := by
  simpa using C6_hold_no_churn 10000 (3/10000) (1/2) ⟨some 0, some 0, 50, 1/2⟩
    [⟨some 60, some 0, 50, 1/2⟩, ⟨some 120, some 0, 50, 1/2⟩]
    (by norm_num) rfl (by simp)

/-! ### Claim C7 -/

theorem indexBarsAux_signal (i : Nat) (l : List Bar) (x : Row) (hx : x ∈ indexBarsAux i l) :
    ∃ b ∈ l, x.signal = b.signal := by
  induction l generalizing i with
  | nil => cases hx
  | cons b bs ih =>
      rcases List.mem_cons.mp hx with h | h
      · exact ⟨b, List.mem_cons_self b bs, by rw [h]⟩
      · obtain ⟨b2, hb2, hs⟩ := ih (i + 1) h
        exact ⟨b2, List.mem_cons_of_mem b hb2, hs⟩

theorem indexBarsAux_length (i : Nat) (l : List Bar) :
    (indexBarsAux i l).length = l.length := by
  induction l generalizing i with
  | nil => rfl
  | cons b bs ih => simp [indexBarsAux, ih]

theorem closeFinalPos_flat (cost_rate : ℚ) (s : SimState) (r : Row) (h : s.position = 0) :
    closeFinalPos cost_rate s r = s := by
  unfold closeFinalPos
  rw [if_neg]
  simp [h]

/-- A run whose rows all carry signal 0 never trades: capital, ledger and
cost list come out exactly as initialized. -/
theorem simulate_flat (initial_capital cost_rate : ℚ) (rows : List Row)
    (hz : ∀ r ∈ rows, r.signal = 0) :
    (simulate initial_capital cost_rate rows).capital = initial_capital
    ∧ (simulate initial_capital cost_rate rows).trades = []
    ∧ (simulate initial_capital cost_rate rows).transaction_costs = [] := by
  have hfold := foldl_const_signal cost_rate rows (initState initial_capital)
    (fun r hr => hz r hr)
  cases h : rows.getLast? with
  | none =>
      simp only [simulate, loopState, h]
      rw [hfold]
      exact ⟨rfl, rfl, rfl⟩
  | some r =>
      simp only [simulate, loopState, h]
      rw [hfold, closeFinalPos_flat cost_rate _ r rfl]
      exact ⟨rfl, rfl, rfl⟩

/-- C7: every non-empty input whose signal is 0 at every bar produces a
`Results` value with an empty trade ledger, `final_capital` equal to
`initial_capital`, and `total_transaction_cost` zero, in both timestamp
modes. -/
theorem C7_flat_run (initial_capital cost_rate : ℚ) (bars : List Bar) (hasDatetime : Bool)
    (hne : bars ≠ []) (hz : ∀ b ∈ bars, b.signal = 0) :
    (run_backtest initial_capital cost_rate bars hasDatetime).isSome = true
    ∧ ∀ r : Results, run_backtest initial_capital cost_rate bars hasDatetime = some r →
        r.trades = [] ∧ r.final_capital = initial_capital ∧ r.total_transaction_cost = 0 := by
  cases hasDatetime with
  | false =>
      have hz2 : ∀ x ∈ indexBars bars, x.signal = 0 := by
        intro x hx
        obtain ⟨b, hb, hs⟩ := indexBarsAux_signal 0 bars x hx
        rw [hs]
        exact hz b hb
      have hsim := simulate_flat initial_capital cost_rate (indexBars bars) hz2
      have hlen : (simulate initial_capital cost_rate (indexBars bars)).equity_curve.length
          = bars.length := by
        rw [simulate_equity_length]
        exact indexBarsAux_length 0 bars
      have hne2 : (simulate initial_capital cost_rate (indexBars bars)).equity_curve ≠ [] := by
        intro h0
        rw [h0] at hlen
        exact hne (List.length_eq_zero.mp hlen.symm)
      simp only [run_backtest, simOf, Bool.false_eq_true, if_false, calculate_statistics]
      rw [if_neg (by simp [hsim.2.1]), if_neg hne2]
      constructor
      · rfl
      · intro r hr
        injection hr with h2
        subst h2
        exact ⟨hsim.2.1, hsim.1, by rw [show (simulate initial_capital cost_rate
          (indexBars bars)).transaction_costs = [] from hsim.2.2]; rfl⟩
  | true =>
      have hz2 : ∀ x ∈ preparedBars (sortByTime bars), x.signal = 0 := by
        intro x hx
        obtain ⟨b, hb, rfl⟩ := List.mem_map.mp hx
        exact hz b ((List.mem_insertionSort barLe).mp hb)
      have hsim := simulate_flat initial_capital cost_rate (preparedBars (sortByTime bars)) hz2
      have hlen : (simulate initial_capital cost_rate
          (preparedBars (sortByTime bars))).equity_curve.length = bars.length := by
        rw [simulate_equity_length]
        simp [preparedBars, sortByTime, List.length_insertionSort]
      have hne2 : (simulate initial_capital cost_rate
          (preparedBars (sortByTime bars))).equity_curve ≠ [] := by
        intro h0
        rw [h0] at hlen
        exact hne (List.length_eq_zero.mp hlen.symm)
      simp only [run_backtest, simOf, if_true, calculate_statistics]
      rw [if_neg (by simp [hsim.2.1]), if_neg hne2]
      constructor
      · rfl
      · intro r hr
        injection hr with h2
        subst h2
        exact ⟨hsim.2.1, hsim.1, by rw [show (simulate initial_capital cost_rate
          (preparedBars (sortByTime bars))).transaction_costs = [] from hsim.2.2]; rfl⟩

/-- C7 witness: a two-bar all-flat input with a datetime column, evaluated
concretely. -/
theorem C7_flat_run_witness :
    (run_backtest 777 (1/100) [⟨some 0, 2, 0⟩, ⟨some 60, 3, 0⟩] true).isSome = true
    ∧ (⟨777, 777, 0, 0, 0, 0, 0, 0, 1, 0, 0, 0, 0, 0, 0, 0, 0, 0, 0, 0, 0, 0, 0, [],
        [⟨some 0, 777, 2, 0, 0⟩, ⟨some 60, 777, 3, 0, 0⟩]⟩ : Results).trades = []
    ∧ (⟨777, 777, 0, 0, 0, 0, 0, 0, 1, 0, 0, 0, 0, 0, 0, 0, 0, 0, 0, 0, 0, 0, 0, [],
        [⟨some 0, 777, 2, 0, 0⟩, ⟨some 60, 777, 3, 0, 0⟩]⟩ : Results).final_capital = 777 := by
  have h := C7_flat_run 777 (1/100) [⟨some 0, 2, 0⟩, ⟨some 60, 3, 0⟩] true
    (by simp) (by simp)
  have hsome : run_backtest 777 (1/100) [⟨some 0, 2, 0⟩, ⟨some 60, 3, 0⟩] true =
      some ⟨777, 777, 0, 0, 0, 0, 0, 0, 1, 0, 0, 0, 0, 0, 0, 0, 0, 0, 0, 0, 0, 0, 0, [],
        [⟨some 0, 777, 2, 0, 0⟩, ⟨some 60, 777, 3, 0, 0⟩]⟩ := by
    norm_num [run_backtest, simOf, preparedBars, sortByTime, List.insertionSort,
      List.orderedInsert, barLe, timeLe, dateOf, minTime, maxTime, calculate_statistics,
      simulate, loopState, stepBar, appendEquity, closePosition, openPosition,
      closeFinalPos, initState, current_equity, positionPnl, addDaily, Int.fdiv,
      mean, maxD, minD, drawdowns, cummax, cummaxAux, pct_change]
    simp
  exact ⟨h.1, (h.2 _ hsome).1, (h.2 _ hsome).2.1⟩

/-! ### Claim C8 -/

theorem indexBarsAux_proj (i : Nat) (l : List Bar) :
    ((indexBarsAux i l).map fun r => (r.price, r.signal)) =
      l.map fun b => (b.price, b.signal) := by
  induction l generalizing i with
  | nil => rfl
  | cons b bs ih => simp [indexBarsAux, ih]

/-- C8 counterexample: on the two-bar input whose timestamps are supplied
in descending order, `run_backtest` (datetime mode) yields final capital
8000, while processing the rows in the supplied order yields 18000: the
source re-sorts by parsed timestamp at line 44, so results are NOT
computed over the bars in their supplied order. -/
theorem C8_counterexample :
    ((run_backtest 10000 (1/10) [⟨some 100, 100, 1⟩, ⟨some 0, 200, 0⟩] true).map
      fun r => r.final_capital) = some 8000
    ∧ (simulate 10000 (1/10) (preparedBars [⟨some 100, 100, 1⟩, ⟨some 0, 200, 0⟩])).capital
        = 18000
    ∧ ((8000 : ℚ) ≠ 18000) := by
  refine ⟨?_, ?_, by norm_num⟩
  · norm_num [run_backtest, simOf, preparedBars, sortByTime, List.insertionSort,
      List.orderedInsert, barLe, timeLe, dateOf, minTime, maxTime, calculate_statistics,
      simulate, loopState, stepBar, appendEquity, closePosition, openPosition,
      closeFinalPos, initState, current_equity, positionPnl, addDaily, Int.fdiv,
      mean, maxD, minD, drawdowns, cummax, cummaxAux, pct_change]
    exact ⟨_, ⟨by simp, rfl⟩, rfl⟩
  · norm_num [simulate, loopState, stepBar, appendEquity, closePosition, openPosition,
      closeFinalPos, initState, current_equity, positionPnl, addDaily, preparedBars, dateOf]

/-- C8 (amended): when a datetime column is present the simulator first
re-sorts the input ascending by parsed timestamp (line 44) and computes
the equity curve over the SORTED order; only in index mode (no datetime
column) are the bars processed in the supplied order. -/
theorem C8_sorts_when_datetime (initial_capital cost_rate : ℚ) (bars : List Bar) :
    (simOf initial_capital cost_rate bars true =
        simulate initial_capital cost_rate (preparedBars (sortByTime bars))
      ∧ (sortByTime bars).Perm bars ∧ List.Sorted barLe (sortByTime bars))
    ∧ ((simOf initial_capital cost_rate bars true).equity_curve.map
        fun e => (e.price, e.signal)) = ((sortByTime bars).map fun b => (b.price, b.signal))
    ∧ ((simOf initial_capital cost_rate bars false).equity_curve.map
        fun e => (e.price, e.signal)) = (bars.map fun b => (b.price, b.signal)) := by
  refine ⟨⟨rfl, List.perm_insertionSort barLe bars, List.sorted_insertionSort barLe bars⟩, ?_, ?_⟩
  · show ((simulate initial_capital cost_rate (preparedBars (sortByTime bars))).equity_curve.map
      fun e => (e.price, e.signal)) = _
    rw [simulate_equity_proj]
    simp [preparedBars]
  · show ((simulate initial_capital cost_rate (indexBars bars)).equity_curve.map
      fun e => (e.price, e.signal)) = _
    rw [simulate_equity_proj]
    exact indexBarsAux_proj 0 bars

/-! ### Claim C9 -/

set_option linter.unusedVariables false in
/-- C9: the degenerate-condition behaviour of the three risk metrics on
any produced `Results`.  Absent per-bar equity returns, or returns whose
(sample, one-delta-degree-of-freedom) standard deviation is zero, give
Sharpe exactly `some 0` - in particular not the `NaN` (`none`) that the
branch would propagate; a non-negative maximum drawdown gives Calmar
exactly 0; a zero calendar span gives CAGR exactly 0. -/
theorem C9_degenerate_metrics (initial_capital cost_rate : ℚ) (bars : List Bar)
    (hasDatetime : Bool) (r : Results)
    (h : run_backtest initial_capital cost_rate bars hasDatetime = some r) :
    ((equityReturns (simOf initial_capital cost_rate bars hasDatetime) = [] ∨
        sampleVar (equityReturns (simOf initial_capital cost_rate bars hasDatetime)) = some 0) →
      sharpe_of (equityReturns (simOf initial_capital cost_rate bars hasDatetime)) = some 0)
    ∧ (0 ≤ r.max_drawdown →
        calmar_of (cagr_of initial_capital r.final_capital r.n_days) r.max_drawdown = 0)
    ∧ (r.n_days = 0 → cagr_of initial_capital r.final_capital r.n_days = 0) := by
  refine ⟨?_, ?_, ?_⟩
  · intro hd
    unfold sharpe_of
    rcases hd with hd | hd
    · rw [if_neg]
      simp [hd]
    · rw [if_neg]
      simp [hd]
  · intro hd
    unfold calmar_of
    rw [if_neg (not_lt.mpr hd)]
  · intro hd
    simp only [cagr_of]
    rw [if_neg]
    simp [hd]

/-- C9 witness: a one-bar flat run in index mode hits all three degenerate
conditions at once (no returns, zero drawdown, zero calendar days). -/
theorem C9_degenerate_metrics_witness :
    sharpe_of (equityReturns (simOf 10000 (3/10000) [⟨none, 1, 0⟩] false)) = some 0
    ∧ calmar_of (cagr_of 10000 10000 0) 0 = 0
    ∧ cagr_of 10000 10000 0 = 0 := by
  have hsome : run_backtest 10000 (3/10000) [⟨none, 1, 0⟩] false =
      some ⟨10000, 10000, 0, 0, 0, 0, 0, 0, 0, 0, 0, 0, 0, 0, 0, 0, 0, 0, 0, 0, 0, 0, 0, [],
        [⟨some 0, 10000, 1, 0, 0⟩]⟩ := by
    norm_num [run_backtest, simOf, indexBars, indexBarsAux, calculate_statistics,
      simulate, loopState, stepBar, appendEquity, closePosition, openPosition,
      closeFinalPos, initState, current_equity, positionPnl, addDaily,
      mean, maxD, minD, drawdowns, cummax, cummaxAux, pct_change]
  have h := C9_degenerate_metrics 10000 (3/10000) [⟨none, 1, 0⟩] false _ hsome
  refine ⟨h.1 (Or.inl ?_), h.2.1 (by norm_num), h.2.2 rfl⟩
  norm_num [equityReturns, pct_change, simOf, indexBars, indexBarsAux,
    simulate, loopState, stepBar, appendEquity, closePosition, openPosition,
    closeFinalPos, initState, current_equity, positionPnl]

/-! ### Claim C10 -/

/-- C10: every produced `Results` carries a `penalty_counts` field that is
the constant 0 (line 293), and `best_day`/`worst_day` fields that equal
the winning-day and losing-day COUNTS (lines 303-304) - they are not dates
and not P&L values; the extreme P&L values live in `best_day_pnl` and
`worst_day_pnl`. -/
theorem C10_extra_fields (initial_capital cost_rate : ℚ) (bars : List Bar)
    (hasDatetime : Bool) (r : Results)
    (h : run_backtest initial_capital cost_rate bars hasDatetime = some r) :
    r.penalty_counts = 0
    ∧ r.best_day = r.winning_days ∧ r.worst_day = r.losing_days
    ∧ r.best_day = (((simOf initial_capital cost_rate bars hasDatetime).daily_pnl.map
        fun p => p.2).filter fun v => 0 < v).length
    ∧ r.worst_day = (((simOf initial_capital cost_rate bars hasDatetime).daily_pnl.map
        fun p => p.2).filter fun v => v < 0).length := by
  simp only [run_backtest, calculate_statistics] at h
  by_cases h1 : ((simOf initial_capital cost_rate bars hasDatetime).trades ≠ []
      ∧ hasDatetime = false)
  · rw [if_pos h1] at h
    exact Option.noConfusion h
  · rw [if_neg h1] at h
    by_cases h2 : (simOf initial_capital cost_rate bars hasDatetime).equity_curve = []
    · rw [if_pos h2] at h
      exact Option.noConfusion h
    · rw [if_neg h2] at h
      injection h with h3
      subst h3
      exact ⟨rfl, rfl, rfl, rfl, rfl⟩

/-- C10 witness: a run with one winning trade closed on a later calendar
day, evaluated concretely (`best_day = winning_days = 1`,
`worst_day = losing_days = 0`, `penalty_counts = 0`). -/
theorem C10_extra_fields_witness :
    (⟨1000, 2000, 1000, 0, 0, 100, 36525/2, 0, 2, 1, 0, 1, 0, 1000, 1000, 1, 1, 0,
        100, 1000, 0, 1000, 1000,
        [⟨some 0, some 86400, 100, 200, PositionType.LONG, 1, 1000, 0, 1000⟩],
        [⟨some 0, 1000, 100, 1, 0⟩, ⟨some 86400, 2000, 200, 0, 1⟩]⟩ : Results).penalty_counts = 0
    ∧ (⟨1000, 2000, 1000, 0, 0, 100, 36525/2, 0, 2, 1, 0, 1, 0, 1000, 1000, 1, 1, 0,
        100, 1000, 0, 1000, 1000,
        [⟨some 0, some 86400, 100, 200, PositionType.LONG, 1, 1000, 0, 1000⟩],
        [⟨some 0, 1000, 100, 1, 0⟩, ⟨some 86400, 2000, 200, 0, 1⟩]⟩ : Results).best_day =
      (((simOf 1000 0 [⟨some 0, 100, 1⟩, ⟨some 86400, 200, 0⟩] true).daily_pnl.map
        fun p => p.2).filter fun v => 0 < v).length
    ∧ (⟨1000, 2000, 1000, 0, 0, 100, 36525/2, 0, 2, 1, 0, 1, 0, 1000, 1000, 1, 1, 0,
        100, 1000, 0, 1000, 1000,
        [⟨some 0, some 86400, 100, 200, PositionType.LONG, 1, 1000, 0, 1000⟩],
        [⟨some 0, 1000, 100, 1, 0⟩, ⟨some 86400, 2000, 200, 0, 1⟩]⟩ : Results).worst_day =
      (((simOf 1000 0 [⟨some 0, 100, 1⟩, ⟨some 86400, 200, 0⟩] true).daily_pnl.map
        fun p => p.2).filter fun v => v < 0).length := by
  have hsome : run_backtest 1000 0 [⟨some 0, 100, 1⟩, ⟨some 86400, 200, 0⟩] true =
      some ⟨1000, 2000, 1000, 0, 0, 100, 36525/2, 0, 2, 1, 0, 1, 0, 1000, 1000, 1, 1, 0,
        100, 1000, 0, 1000, 1000,
        [⟨some 0, some 86400, 100, 200, PositionType.LONG, 1, 1000, 0, 1000⟩],
        [⟨some 0, 1000, 100, 1, 0⟩, ⟨some 86400, 2000, 200, 0, 1⟩]⟩ := by
    norm_num [run_backtest, simOf, preparedBars, sortByTime, List.insertionSort,
      List.orderedInsert, barLe, timeLe, dateOf, minTime, maxTime, calculate_statistics,
      simulate, loopState, stepBar, appendEquity, closePosition, openPosition,
      closeFinalPos, initState, current_equity, positionPnl, addDaily, Int.fdiv,
      mean, maxD, minD, drawdowns, cummax, cummaxAux, pct_change]
    simp
  have h := C10_extra_fields 1000 0 [⟨some 0, 100, 1⟩, ⟨some 86400, 200, 0⟩] true _ hsome
  exact ⟨h.1, h.2.2.2.1, h.2.2.2.2⟩
